import Mathlib

/- Shallow embedding of src/incremental_booking_data_processing.py:
   metadata-driven incremental ingestion with cumulative fact aggregation
   and SCD Type 2 maintenance of the customer dimension.  Tables are
   modelled as lists of rows, Spark SQL NULL as Option, and aggregation
   with the engine's NULL semantics. -/

namespace BookingETL

/-- Calendar date, compared lexicographically like Python datetime.date. -/
structure Date where
  year : Nat
  month : Nat
  day : Nat
deriving DecidableEq

/-- Python date comparison a <= b (lexicographic on (year, month, day)). -/
def dateLe (a b : Date) : Bool :=
  decide (a.year < b.year) ||
    (decide (a.year = b.year) &&
      (decide (a.month < b.month) ||
        (decide (a.month = b.month) && decide (a.day ≤ b.day))))

/-- Python date comparison a < b (lexicographic on (year, month, day)). -/
def dateLt (a b : Date) : Bool :=
  decide (a.year < b.year) ||
    (decide (a.year = b.year) &&
      (decide (a.month < b.month) ||
        (decide (a.month = b.month) && decide (a.day < b.day))))

def dLe : Date → Date → Prop := fun a b => dateLe a b = true

instance : DecidableRel dLe := fun a b => inferInstanceAs (Decidable (dateLe a b = true))

instance : IsTotal Date dLe := ⟨by
  intro a b
  simp only [dLe, dateLe, Bool.or_eq_true, Bool.and_eq_true, decide_eq_true_eq]
  omega⟩

instance : IsTrans Date dLe := ⟨by
  intro a b c
  simp only [dLe, dateLe, Bool.or_eq_true, Bool.and_eq_true, decide_eq_true_eq]
  omega⟩

/-- NULL-aware addition used to fold SQL sum. -/
def optAdd : Option Int → Option Int → Option Int
  | none, b => b
  | some a, none => some a
  | some a, some b => some (a + b)

/-- Spark sum over a column: ignores NULLs, NULL when no non-NULL value. -/
def sqlSum : List (Option Int) → Option Int
  | [] => none
  | x :: xs => optAdd x (sqlSum xs)

/-- SQL subtraction, NULL-propagating (total_cost = amount - discount). -/
def optSub : Option Int → Option Int → Option Int
  | some a, some b => some (a - b)
  | _, _ => none

/-- SQL equality used in join and merge conditions: NULL never matches. -/
def sqlEqI : Option Int → Option Int → Bool
  | some a, some b => decide (a = b)
  | _, _ => false

/-- Raw booking record (one CSV row); inferSchema makes every field nullable. -/
structure BookingRec where
  booking_id : Option Int
  customer_id : Option Int
  amount : Option Int
  quantity : Option Int
  discount : Option Int
  booking_type : Option String
deriving DecidableEq

/-- Raw customer record (one CSV row). -/
structure CustomerRec where
  customer_id : Option Int
  customer_name : Option String
  customer_address : Option String
  phone_number : Option String
  email : Option String
deriving DecidableEq

/-- A row of df_transformed.  ingestion_time (wall clock at processing time)
    is not modelled: it is non-reproducible and no claim depends on it. -/
structure TransRow where
  customer_id : Option Int
  booking_id : Option Int
  amount : Option Int
  quantity : Option Int
  discount : Option Int
  booking_type : Option String
  customer_name : Option String
  customer_address : Option String
  phone_number : Option String
  email : Option String
  total_cost : Option Int
deriving DecidableEq

/-- booking_df.join(customer_df, "customer_id", how="left"), restricted to one
    booking row: all matching customer rows, or one NULL-padded row. -/
def joinOne (cs : List CustomerRec) (b : BookingRec) : List (BookingRec × Option CustomerRec) :=
  let ms := cs.filter (fun c => sqlEqI b.customer_id c.customer_id)
  if ms.isEmpty then [(b, none)] else ms.map (fun c => (b, some c))

/-- The full left join on customer_id. -/
def joinRows (bs : List BookingRec) (cs : List CustomerRec) : List (BookingRec × Option CustomerRec) :=
  bs.flatMap (joinOne cs)

/-- Flatten a joined pair and add total_cost = amount - discount. -/
def mkTrans (p : BookingRec × Option CustomerRec) : TransRow :=
  { customer_id := p.1.customer_id
    booking_id := p.1.booking_id
    amount := p.1.amount
    quantity := p.1.quantity
    discount := p.1.discount
    booking_type := p.1.booking_type
    customer_name := p.2.bind CustomerRec.customer_name
    customer_address := p.2.bind CustomerRec.customer_address
    phone_number := p.2.bind CustomerRec.phone_number
    email := p.2.bind CustomerRec.email
    total_cost := optSub p.1.amount p.1.discount }

/-- .filter(col("quantity") > 0) under SQL three-valued logic: a NULL
    quantity does not satisfy the predicate and the row is dropped. -/
def qtyPos (r : TransRow) : Bool :=
  match r.quantity with
  | some q => decide (0 < q)
  | none => false

/-- Step 3 of process_date: left join, total_cost, quantity filter. -/
def transform (bs : List BookingRec) (cs : List CustomerRec) : List TransRow :=
  ((joinRows bs cs).map mkTrans).filter qtyPos

/-- A row of the booking_fact table. -/
structure FactRow where
  booking_type : Option String
  customer_id : Option Int
  total_amount_sum : Option Int
  total_quantity_sum : Option Int
deriving DecidableEq

abbrev FactKey := Option String × Option Int

def factKey (r : FactRow) : FactKey := (r.booking_type, r.customer_id)

def transKey (r : TransRow) : FactKey := (r.booking_type, r.customer_id)

/-- Step 4: groupBy("booking_type","customer_id").agg(sum(total_cost),
    sum(quantity)) — one output row per distinct key of the input. -/
def aggTrans (rows : List TransRow) : List FactRow :=
  ((rows.map transKey).dedup).map (fun k =>
    { booking_type := k.1
      customer_id := k.2
      total_amount_sum := sqlSum ((rows.filter (fun r => decide (transKey r = k))).map TransRow.total_cost)
      total_quantity_sum := sqlSum ((rows.filter (fun r => decide (transKey r = k))).map TransRow.quantity) })

/-- The re-aggregation of combined: groupBy the same key, sum the sums. -/
def resumFact (rows : List FactRow) : List FactRow :=
  ((rows.map factKey).dedup).map (fun k =>
    { booking_type := k.1
      customer_id := k.2
      total_amount_sum := sqlSum ((rows.filter (fun r => decide (factKey r = k))).map FactRow.total_amount_sum)
      total_quantity_sum := sqlSum ((rows.filter (fun r => decide (factKey r = k))).map FactRow.total_quantity_sum) })

/-- Steps 4-5 of process_date: per-date delta, then union with the existing
    fact table (when it exists) and re-sum by the same key; the result
    overwrites the stored fact table in full. -/
def aggregate_and_merge (trans : List TransRow) (existing : Option (List FactRow)) : List FactRow :=
  match existing with
  | some t => resumFact (t ++ aggTrans trans)
  | none => aggTrans trans

/-- The open sentinel '9999-12-31'. -/
def openTo : Date := ⟨9999, 12, 31⟩

/-- A row of the customer_scd dimension table. -/
structure DimRow where
  customer_id : Option Int
  customer_name : Option String
  customer_address : Option String
  phone_number : Option String
  email : Option String
  valid_from : Date
  valid_to : Date
deriving DecidableEq

/-- valid_from/valid_to defaulting: the raw customer CSV has neither column,
    so valid_from := processing date and valid_to := the open sentinel. -/
def mkIncoming (d : Date) (cs : List CustomerRec) : List DimRow :=
  cs.map (fun c =>
    { customer_id := c.customer_id
      customer_name := c.customer_name
      customer_address := c.customer_address
      phone_number := c.phone_number
      email := c.email
      valid_from := d
      valid_to := openTo })

/-- Action on one target row of the Delta MERGE with condition
    scd.customer_id = updates.customer_id AND scd.valid_to = '9999-12-31'
    and update set valid_to := updates.valid_from. -/
def closeOne (incoming : List DimRow) (r : DimRow) : DimRow :=
  match (if r.valid_to = openTo
         then incoming.find? (fun u => sqlEqI r.customer_id u.customer_id)
         else none) with
  | some u => { r with valid_to := u.valid_from }
  | none => r

/-- Step 6 of process_date: MERGE closing currently-open matched rows, then
    append all incoming rows; when no table exists, the incoming batch
    becomes the initial table verbatim. -/
def apply_scd2 (incoming : List DimRow) (existing : Option (List DimRow)) : List DimRow :=
  match existing with
  | some t => t.map (closeOne incoming) ++ incoming
  | none => incoming

/-- A row of the pipeline_metadata table. -/
structure MetaRow where
  table_name : String
  last_processed_date : Date
deriving DecidableEq

def PIPELINE_NAME : String := "booking_customer_pipeline"

def isPipelineRow (r : MetaRow) : Bool := decide (r.table_name = PIPELINE_NAME)

/-- get_last_processed_date: conditional INSERT of the sentinel row when no
    row for the pipeline exists, then SELECT ... WHERE table_name = name and
    collect()[0].  Returns the read value and the store after the call. -/
def get_last_processed_date (meta : List MetaRow) : Option Date × List MetaRow :=
  let m1 := if meta.any isPipelineRow then meta
            else meta ++ [{ table_name := PIPELINE_NAME, last_processed_date := ⟨1900, 1, 1⟩ }]
  (((m1.filter isPipelineRow).head?).map MetaRow.last_processed_date, m1)

/-- UPDATE pipeline_metadata SET last_processed_date = d WHERE table_name = name. -/
def update_last_processed_date (meta : List MetaRow) (d : Date) : List MetaRow :=
  meta.map (fun r => if r.table_name = PIPELINE_NAME then { r with last_processed_date := d } else r)

/-- The three persistent stores the pipeline writes. -/
structure PipelineState where
  meta : List MetaRow
  fact : Option (List FactRow)
  scd : Option (List DimRow)
deriving DecidableEq

/-- Deequ isNonNegative: every non-NULL value of the column is >= 0. -/
def isNonNegative (vals : List (Option Int)) : Bool :=
  vals.all (fun v => match v with | some x => decide (0 ≤ x) | none => true)

/-- Deequ isComplete: no NULL in the column. -/
def isComplete {α : Type} (vals : List (Option α)) : Bool := vals.all Option.isSome

/-- The booking Check of process_date: hasSize(>0), isUnique(booking_id),
    isComplete(customer_id), isComplete(amount), isNonNegative(amount),
    isNonNegative(quantity), isNonNegative(discount). -/
def bookingChecksPass (bs : List BookingRec) : Bool :=
  decide (0 < bs.length) &&
  decide ((bs.map BookingRec.booking_id).Nodup) &&
  isComplete (bs.map BookingRec.customer_id) &&
  isComplete (bs.map BookingRec.amount) &&
  isNonNegative (bs.map BookingRec.amount) &&
  isNonNegative (bs.map BookingRec.quantity) &&
  isNonNegative (bs.map BookingRec.discount)

/-- The customer Check of process_date. -/
def customerChecksPass (cs : List CustomerRec) : Bool :=
  decide (0 < cs.length) &&
  decide ((cs.map CustomerRec.customer_id).Nodup) &&
  isComplete (cs.map CustomerRec.customer_name) &&
  isComplete (cs.map CustomerRec.customer_address) &&
  isComplete (cs.map CustomerRec.phone_number) &&
  isComplete (cs.map CustomerRec.email)

/-- Outcome of running a piece of the pipeline: ok or a raised exception,
    each carrying the store state at that moment. -/
inductive RunResult where
  | ok (s : PipelineState)
  | err (s : PipelineState) (msg : String)
deriving DecidableEq

/-- process_date(spark, date): DQ gate, transform, fact aggregate-and-
    overwrite, then the SCD2 step.  The MERGE of the existing table (its
    own Delta commit) and the append of the incoming rows are two separate
    transactions, so two distinct write failures are injected:
    scdMergeFails raises inside merge.execute(), before anything of the
    dimension commits; scdAppendFails raises at the append, after the
    MERGE has committed, leaving the matched open rows closed and nothing
    appended.  When no dimension table exists yet the initial overwrite is
    one commit, whose failure is injected through scdAppendFails. -/
def process_date (pydeequAvailable scdMergeFails scdAppendFails : Bool) (d : Date)
    (bs : List BookingRec) (cs : List CustomerRec) (s : PipelineState) : RunResult :=
  if pydeequAvailable && !bookingChecksPass bs then
    .err s "Booking data quality checks failed"
  else if pydeequAvailable && !customerChecksPass cs then
    .err s "Customer data quality checks failed"
  else
    let s1 : PipelineState := { s with fact := some (aggregate_and_merge (transform bs cs) s.fact) }
    match s.scd with
    | some t =>
      if scdMergeFails then .err s1 "SCD merge failed"
      else
        let s2 : PipelineState := { s1 with scd := some (t.map (closeOne (mkIncoming d cs))) }
        if scdAppendFails then .err s2 "SCD append failed"
        else .ok { s2 with scd := some (t.map (closeOne (mkIncoming d cs)) ++ mkIncoming d cs) }
    | none =>
      if scdAppendFails then .err s1 "SCD write failed"
      else .ok { s1 with scd := some (mkIncoming d cs) }

/-- One iteration of the __main__ loop: process_date, then on success the
    watermark UPDATE (wmWriteFails injects a failure there). -/
def runDateStep (pydeequAvailable scdMergeFails scdAppendFails wmWriteFails : Bool) (d : Date)
    (bs : List BookingRec) (cs : List CustomerRec) (s : PipelineState) : RunResult :=
  match process_date pydeequAvailable scdMergeFails scdAppendFails d bs cs s with
  | .err s1 m => .err s1 m
  | .ok s1 =>
    if wmWriteFails then .err s1 "Watermark update failed"
    else .ok { s1 with meta := update_last_processed_date s1.meta d }

/-- The two store writes of a fully successful process_date. -/
def applyDateWrites (d : Date) (bs : List BookingRec) (cs : List CustomerRec)
    (s : PipelineState) : PipelineState :=
  { s with fact := some (aggregate_and_merge (transform bs cs) s.fact)
           scd := some (apply_scd2 (mkIncoming d cs) s.scd) }

/-- __main__: pending = sorted([d for d in booking_dates
    if d in customer_dates and d > last_processed]). -/
def pending_dates (bookingDates customerDates : List Date) (w : Date) : List Date :=
  List.insertionSort dLe
    (bookingDates.filter (fun d => decide (d ∈ customerDates) && dateLt w d))

/-- ASCII decimal digit (the regex token \x5cd on these file names). -/
def isDig (c : Char) : Bool := decide ('0' ≤ c) && decide (c ≤ '9')

/-- Match exactly n digits at the head of s, returning them and the rest. -/
def takeDigits : Nat → List Char → Option (List Char × List Char)
  | 0, s => some ([], s)
  | _ + 1, [] => none
  | n + 1, c :: s =>
    if isDig c then (takeDigits n s).map (fun p => (c :: p.1, p.2)) else none

/-- Match a literal character sequence at the head of s, returning the rest. -/
def matchLit : List Char → List Char → Option (List Char)
  | [], s => some s
  | _ :: _, [] => none
  | l :: ls, c :: s => if c = l then matchLit ls s else none

/-- The capture group of the source patterns: four digits, dash, two digits,
    dash, two digits.  Returns the captured token and the rest of s. -/
def matchDateTok (s : List Char) : Option (List Char × List Char) :=
  match takeDigits 4 s with
  | none => none
  | some (y4, s1) =>
    match matchLit ['-'] s1 with
    | none => none
    | some s2 =>
      match takeDigits 2 s2 with
      | none => none
      | some (m2, s3) =>
        match matchLit ['-'] s3 with
        | none => none
        | some s4 =>
          match takeDigits 2 s4 with
          | none => none
          | some (d2, s5) => some (y4 ++ '-' :: (m2 ++ '-' :: d2), s5)

/-- One anchored attempt of the __main__ patterns, e.g.
    bookings_(four digits-two-two) then backslash-escape, then the regex
    dot (any character but newline), then the literal csv.  In the raw
    pattern string of the source the two backslashes before .csv are a
    regex escape for one literal backslash character, so the dot of .csv
    is the regex any-character token, not a literal dot. -/
def matchPatAt (lit : List Char) (s : List Char) : Option (List Char) :=
  match matchLit lit s with
  | none => none
  | some s1 =>
    match matchDateTok s1 with
    | none => none
    | some (tok, s2) =>
      match matchLit ['\\'] s2 with
      | none => none
      | some s3 =>
        match s3 with
        | [] => none
        | c :: s4 =>
          if c = '\n' then none
          else (matchLit ['c', 's', 'v'] s4).map (fun _ => tok)

/-- re.search: leftmost position where the pattern matches; returns group(1). -/
def reSearch (lit : List Char) : List Char → Option (List Char)
  | [] => matchPatAt lit []
  | c :: rest =>
    match matchPatAt lit (c :: rest) with
    | some tok => some tok
    | none => reSearch lit rest

def isLeap (y : Nat) : Bool := (decide (y % 4 = 0) && decide (y % 100 ≠ 0)) || decide (y % 400 = 0)

def daysInMonth (y m : Nat) : Nat :=
  if m = 2 then (if isLeap y then 29 else 28)
  else if m = 4 ∨ m = 6 ∨ m = 9 ∨ m = 11 then 30
  else 31

def digitsToNat (ds : List Char) : Nat :=
  ds.foldl (fun a c => 10 * a + (c.toNat - '0'.toNat)) 0

/-- datetime.strptime(tok, "%Y-%m-%d").date(): parse and validate a real
    calendar date (year 1..9999, month 1..12, day within the month). -/
def parseDateTok (tok : List Char) : Option Date :=
  match tok with
  | [y1, y2, y3, y4, h1, m1, m2, h2, d1, d2] =>
    if ([y1, y2, y3, y4, m1, m2, d1, d2].all isDig) && (h1 = '-') && (h2 = '-') then
      let y := digitsToNat [y1, y2, y3, y4]
      let mo := digitsToNat [m1, m2]
      let dy := digitsToNat [d1, d2]
      if 1 ≤ y ∧ 1 ≤ mo ∧ mo ≤ 12 ∧ 1 ≤ dy ∧ dy ≤ daysInMonth y mo then
        some ⟨y, mo, dy⟩
      else none
    else none
  | _ => none

/-- list_raw_dates(spark, raw_dir, pattern): per file-name, re.search the
    pattern and strptime group(1); failures of either are skipped; finally
    sorted(list(set(dates))).  The pattern is given by its fixed literal
    head (bookings_ or customers_), the shared remainder is in matchPatAt. -/
def list_raw_dates (lit : List Char) (files : List String) : List Date :=
  List.insertionSort dLe
    ((files.filterMap (fun f => (reSearch lit f.toList).bind parseDateTok)).dedup)

/-- The literal head of the pattern in __main__ line 210. -/
def bookingsLit : List Char := "bookings_".toList

/-- The literal head of the pattern in __main__ line 211. -/
def customersLit : List Char := "customers_".toList

/-- Per-key total_amount_sum of a fact table: the Spark sum of the
    total_amount_sum column over the rows with that key. -/
def amtAt (k : FactKey) (rows : List FactRow) : Option Int :=
  sqlSum ((rows.filter (fun r => decide (factKey r = k))).map FactRow.total_amount_sum)

/-- Per-key total_quantity_sum of a fact table. -/
def qtyAt (k : FactKey) (rows : List FactRow) : Option Int :=
  sqlSum ((rows.filter (fun r => decide (factKey r = k))).map FactRow.total_quantity_sum)

/-- Concrete transformed row: booking type A, customer 1, total_cost 50, qty 2. -/
def exTrans : TransRow :=
  { customer_id := some 1, booking_id := some 9, amount := some 60, quantity := some 2,
    discount := some 10, booking_type := some "A", customer_name := none,
    customer_address := none, phone_number := none, email := none, total_cost := some 50 }

/-- Concrete existing fact row: (type A, customer 1, sum 100, qty 5). -/
def exFact : FactRow := ⟨some "A", some 1, some 100, some 5⟩

/-- Concrete existing open dimension row for customer 5 since 2024-01-01. -/
def dim0 : DimRow := ⟨some 5, some "N", some "A", some "P", some "E", ⟨2024, 1, 1⟩, openTo⟩

/-- Concrete incoming dimension row for customer 5, valid_from 2024-01-05. -/
def inc0 : DimRow := ⟨some 5, some "N2", some "A2", some "P2", some "E2", ⟨2024, 1, 5⟩, openTo⟩

/-- Concrete booking: id 9, customer 5, amount 60, quantity 2, discount 10, type A. -/
def b0 : BookingRec := ⟨some 9, some 5, some 60, some 2, some 10, some "A"⟩

/-- Concrete booking with a negative amount. -/
def bneg : BookingRec := ⟨some 1, some 2, some (-5), some 1, some 0, some "A"⟩

/-- Concrete customer record for customer 5. -/
def c0 : CustomerRec := ⟨some 5, some "N", some "A", some "P", some "E"⟩

/-- Concrete pre-run state: empty metadata, no fact table, no dimension table. -/
def s0 : PipelineState := ⟨[], none, none⟩

/-- The transformed row produced from b0 joined with c0. -/
def tr0 : TransRow := mkTrans (b0, some c0)

theorem optAdd_assoc (a b c : Option Int) :
    optAdd (optAdd a b) c = optAdd a (optAdd b c) := by
  cases a <;> cases b <;> cases c <;> simp [optAdd, Int.add_assoc]

theorem sqlSum_single (o : Option Int) : sqlSum [o] = o := by
  cases o <;> rfl

theorem sqlSum_append (xs ys : List (Option Int)) :
    sqlSum (xs ++ ys) = optAdd (sqlSum xs) (sqlSum ys) := by
  induction xs with
  | nil => rfl
  | cons x xs ih => simp [sqlSum, ih, optAdd_assoc]

theorem filter_eq_key_of_nodup {κ : Type} [DecidableEq κ] {l : List κ} (h : l.Nodup) (k : κ) :
    l.filter (fun x => decide (x = k)) = if k ∈ l then [k] else [] := by
  induction l with
  | nil => simp
  | cons a t ih =>
    rcases List.nodup_cons.mp h with ⟨ha, ht⟩
    by_cases hak : a = k
    · subst hak
      have hnil : t.filter (fun x => decide (x = a)) = [] := by
        refine List.filter_eq_nil_iff.mpr (fun x hx => ?_)
        simp only [decide_eq_true_eq]
        rintro rfl
        exact ha hx
      simp [List.filter_cons, hnil]
    · have hka : ¬k = a := fun h' => hak h'.symm
      simp [List.filter_cons, hak, ih ht, List.mem_cons, hka]

theorem sqlEqI_eq {a b : Option Int} (h : sqlEqI a b = true) : a = b := by
  cases a <;> cases b <;> simp_all [sqlEqI]

theorem amtAt_append (k : FactKey) (xs ys : List FactRow) :
    amtAt k (xs ++ ys) = optAdd (amtAt k xs) (amtAt k ys) := by
  simp [amtAt, List.filter_append, sqlSum_append]

theorem qtyAt_append (k : FactKey) (xs ys : List FactRow) :
    qtyAt k (xs ++ ys) = optAdd (qtyAt k xs) (qtyAt k ys) := by
  simp [qtyAt, List.filter_append, sqlSum_append]

theorem resumFact_keys (rows : List FactRow) :
    (resumFact rows).map factKey = (rows.map factKey).dedup := by
  unfold resumFact
  rw [List.map_map]
  exact List.map_id _

theorem aggTrans_keys (rows : List TransRow) :
    (aggTrans rows).map factKey = (rows.map transKey).dedup := by
  unfold aggTrans
  rw [List.map_map]
  exact List.map_id _

theorem resumFact_filter (rows : List FactRow) (k : FactKey) :
    (resumFact rows).filter (fun r => decide (factKey r = k)) =
      if k ∈ rows.map factKey then
        [{ booking_type := k.1, customer_id := k.2,
           total_amount_sum := amtAt k rows, total_quantity_sum := qtyAt k rows }]
      else [] := by
  have h1 : (resumFact rows).filter (fun r => decide (factKey r = k)) =
      (((rows.map factKey).dedup).filter (fun x => decide (x = k))).map
        (fun x => ({ booking_type := x.1, customer_id := x.2,
                     total_amount_sum := amtAt x rows,
                     total_quantity_sum := qtyAt x rows } : FactRow)) := by
    unfold resumFact
    rw [List.filter_map]
    rfl
  rw [h1, filter_eq_key_of_nodup (List.nodup_dedup _) k]
  by_cases hm : k ∈ rows.map factKey
  · simp [hm]
  · simp [hm]

theorem amtAt_resumFact (rows : List FactRow) (k : FactKey) :
    amtAt k (resumFact rows) = amtAt k rows := by
  show sqlSum (((resumFact rows).filter (fun r => decide (factKey r = k))).map
      FactRow.total_amount_sum) = amtAt k rows
  rw [resumFact_filter]
  by_cases hm : k ∈ rows.map factKey
  · simp [hm, sqlSum_single]
  · have hnil : rows.filter (fun r => decide (factKey r = k)) = [] := by
      refine List.filter_eq_nil_iff.mpr (fun r hr => ?_)
      simp only [decide_eq_true_eq]
      intro hk
      exact hm (List.mem_map.mpr ⟨r, hr, hk⟩)
    simp [hm, amtAt, hnil, sqlSum]

theorem qtyAt_resumFact (rows : List FactRow) (k : FactKey) :
    qtyAt k (resumFact rows) = qtyAt k rows := by
  show sqlSum (((resumFact rows).filter (fun r => decide (factKey r = k))).map
      FactRow.total_quantity_sum) = qtyAt k rows
  rw [resumFact_filter]
  by_cases hm : k ∈ rows.map factKey
  · simp [hm, sqlSum_single]
  · have hnil : rows.filter (fun r => decide (factKey r = k)) = [] := by
      refine List.filter_eq_nil_iff.mpr (fun r hr => ?_)
      simp only [decide_eq_true_eq]
      intro hk
      exact hm (List.mem_map.mpr ⟨r, hr, hk⟩)
    simp [hm, qtyAt, hnil, sqlSum]

theorem agg_merge_amt (trans : List TransRow) (t : List FactRow) (k : FactKey) :
    amtAt k (aggregate_and_merge trans (some t)) =
      optAdd (amtAt k t) (amtAt k (aggTrans trans)) := by
  show amtAt k (resumFact (t ++ aggTrans trans)) = _
  rw [amtAt_resumFact, amtAt_append]

theorem agg_merge_qty (trans : List TransRow) (t : List FactRow) (k : FactKey) :
    qtyAt k (aggregate_and_merge trans (some t)) =
      optAdd (qtyAt k t) (qtyAt k (aggTrans trans)) := by
  show qtyAt k (resumFact (t ++ aggTrans trans)) = _
  rw [qtyAt_resumFact, qtyAt_append]

theorem qtyPos_iff (r : TransRow) : qtyPos r = true ↔ ∃ q, r.quantity = some q ∧ 0 < q := by
  cases hq : r.quantity with
  | none => simp [qtyPos, hq]
  | some q =>
    simp only [qtyPos, hq, decide_eq_true_eq, Option.some.injEq]
    constructor
    · intro h
      exact ⟨q, rfl, h⟩
    · rintro ⟨q', rfl, h⟩
      exact h

/-- The failure-free success path of process_date is exactly applyDateWrites. -/
theorem process_date_ok (pa : Bool) (d : Date) (bs : List BookingRec)
    (cs : List CustomerRec) (s : PipelineState)
    (hb : pa = false ∨ (bookingChecksPass bs = true ∧ customerChecksPass cs = true)) :
    process_date pa false false d bs cs s = .ok (applyDateWrites d bs cs s) := by
  rcases hb with h | ⟨h1, h2⟩
  · subst h
    cases hs : s.scd <;> simp [process_date, applyDateWrites, apply_scd2, hs]
  · cases hs : s.scd <;> simp [process_date, applyDateWrites, apply_scd2, hs, h1, h2]

/-- C3: aggregate_and_merge groups transformed rows by (booking_type,
    customer_id), sums total_cost and quantity into the delta, unions the
    delta with the existing table when one exists and re-sums by the same
    key (otherwise the delta is the initial table), so the result has at
    most one row per key, each key's sums being existing plus delta; in
    particular existing (A,1,100,5) merged with delta (A,1,50,2) yields
    exactly the row (A,1,150,7). -/
theorem aggregate_and_merge_correct (trans : List TransRow) (t : List FactRow) (k : FactKey) :
    ((aggregate_and_merge trans (some t)).map factKey).Nodup ∧
    ((aggregate_and_merge trans none).map factKey).Nodup ∧
    amtAt k (aggregate_and_merge trans (some t)) =
      optAdd (amtAt k t) (amtAt k (aggTrans trans)) ∧
    qtyAt k (aggregate_and_merge trans (some t)) =
      optAdd (qtyAt k t) (qtyAt k (aggTrans trans)) ∧
    aggregate_and_merge trans none = aggTrans trans ∧
    aggregate_and_merge [exTrans] (some [exFact]) = [⟨some "A", some 1, some 150, some 7⟩] := by
  refine ⟨?_, ?_, agg_merge_amt trans t k, agg_merge_qty trans t k, rfl, by decide⟩
  · show ((resumFact (t ++ aggTrans trans)).map factKey).Nodup
    rw [resumFact_keys]
    exact List.nodup_dedup _
  · show ((aggTrans trans).map factKey).Nodup
    rw [aggTrans_keys]
    exact List.nodup_dedup _

/-- C1 counterexample: the per-date writes are not idempotent.  Re-applying
    the same date's input (booking b0, customer c0) to the post-run state
    yields a different state: the fact sums double and the dimension rows
    duplicate, so at-least-once re-processing after the writes is unsafe. -/
theorem per_date_writes_not_idempotent :
    applyDateWrites ⟨2024, 1, 5⟩ [b0] [c0] (applyDateWrites ⟨2024, 1, 5⟩ [b0] [c0] s0) ≠
      applyDateWrites ⟨2024, 1, 5⟩ [b0] [c0] s0 := by decide

/-- C1 amended: re-running from the pre-run state reproduces the post-run
    state (the writes are deterministic functions of pre-state and input),
    but the writes are not idempotent under at-least-once re-processing:
    re-applying the same date's input to the post-run state adds the date's
    fact delta into every key's sums a second time and appends the incoming
    dimension batch a second time. -/
theorem per_date_reapply_adds_delta (d : Date) (bs : List BookingRec) (cs : List CustomerRec)
    (s : PipelineState) (k : FactKey) :
    amtAt k (aggregate_and_merge (transform bs cs) (applyDateWrites d bs cs s).fact) =
      optAdd (amtAt k (aggregate_and_merge (transform bs cs) s.fact))
        (amtAt k (aggTrans (transform bs cs))) ∧
    qtyAt k (aggregate_and_merge (transform bs cs) (applyDateWrites d bs cs s).fact) =
      optAdd (qtyAt k (aggregate_and_merge (transform bs cs) s.fact))
        (qtyAt k (aggTrans (transform bs cs))) ∧
    (apply_scd2 (mkIncoming d cs) (applyDateWrites d bs cs s).scd).length =
      (apply_scd2 (mkIncoming d cs) s.scd).length + (mkIncoming d cs).length := by
  refine ⟨?_, ?_, ?_⟩
  · show amtAt k (aggregate_and_merge (transform bs cs)
        (some (aggregate_and_merge (transform bs cs) s.fact))) = _
    rw [agg_merge_amt]
  · show qtyAt k (aggregate_and_merge (transform bs cs)
        (some (aggregate_and_merge (transform bs cs) s.fact))) = _
    rw [agg_merge_qty]
  · show (apply_scd2 (mkIncoming d cs) (some (apply_scd2 (mkIncoming d cs) s.scd))).length = _
    simp [apply_scd2]

/-- C5: the pending set is exactly the dates present in both the booking
    and customer date sets that are strictly greater than the watermark,
    sorted ascending; it is empty when either input set is empty; and for
    B = 1,2,3, C = 2,3,4 (as January 2024 days), w = day 1 it is [2,3]. -/
theorem pending_dates_correct (B C : List Date) (w : Date) :
    (∀ d, d ∈ pending_dates B C w ↔ (d ∈ B ∧ d ∈ C ∧ dateLt w d = true)) ∧
    List.Sorted dLe (pending_dates B C w) ∧
    pending_dates [] C w = [] ∧
    pending_dates B [] w = [] ∧
    pending_dates [⟨2024, 1, 1⟩, ⟨2024, 1, 2⟩, ⟨2024, 1, 3⟩]
        [⟨2024, 1, 2⟩, ⟨2024, 1, 3⟩, ⟨2024, 1, 4⟩] ⟨2024, 1, 1⟩ =
      [⟨2024, 1, 2⟩, ⟨2024, 1, 3⟩] := by
  refine ⟨?_, List.sorted_insertionSort dLe _, rfl, ?_, by decide⟩
  · intro d
    simp [pending_dates, List.mem_filter, and_assoc]
  · simp [pending_dates, List.filter_eq_nil_iff]

/-- C7: a date whose booking batch contains a negative amount fails the
    Deequ gate and process_date raises before any store write: the run
    result is an error carrying the unchanged pre-state, so the fact
    aggregation, the SCD2 apply and the watermark update never happen. -/
theorem validation_failure_aborts (pa mF aF wmF : Bool) (d : Date) (bs : List BookingRec)
    (cs : List CustomerRec) (s : PipelineState) (b : BookingRec) (a : Int)
    (hb : b ∈ bs) (ha : b.amount = some a) (hneg : a < 0) (hpa : pa = true) :
    runDateStep pa mF aF wmF d bs cs s = .err s "Booking data quality checks failed" := by
  subst hpa
  have hnn : isNonNegative (bs.map BookingRec.amount) = false := by
    cases hval : isNonNegative (bs.map BookingRec.amount) with
    | false => rfl
    | true =>
      exfalso
      unfold isNonNegative at hval
      have := List.all_eq_true.mp hval (some a) (List.mem_map.mpr ⟨b, hb, ha⟩)
      simp only [decide_eq_true_eq] at this
      omega
  have hbc : bookingChecksPass bs = false := by
    simp [bookingChecksPass, hnn]
  simp [runDateStep, process_date, hbc]

theorem validation_failure_aborts_witness :
    runDateStep true false false false ⟨2024, 1, 1⟩ [bneg] [] s0 =
      .err s0 "Booking data quality checks failed" :=
  validation_failure_aborts true false false false ⟨2024, 1, 1⟩ [bneg] [] s0 bneg (-5)
    (by decide) (by decide) (by decide) rfl

/-- C8: the transform left-joins bookings to customers on customer_id so no
    booking row is dropped (an unmatched booking yields exactly one row with
    NULL customer attributes), computes total_cost = amount - discount on
    every joined row, and keeps exactly the rows whose quantity is a value
    strictly greater than 0; a row with quantity = 0 never reaches the
    aggregation input. -/
theorem transform_join_cost_filter (bs : List BookingRec) (cs : List CustomerRec) :
    (∀ b ∈ bs, ∃ p ∈ joinRows bs cs, p.1 = b) ∧
    (∀ b : BookingRec, (∀ c ∈ cs, sqlEqI b.customer_id c.customer_id = false) →
      joinOne cs b = [(b, none)]) ∧
    (∀ p : BookingRec × Option CustomerRec,
      (mkTrans p).total_cost = optSub p.1.amount p.1.discount) ∧
    (∀ r : TransRow, r ∈ transform bs cs ↔
      (r ∈ (joinRows bs cs).map mkTrans ∧ ∃ q, r.quantity = some q ∧ 0 < q)) ∧
    (∀ r ∈ (joinRows bs cs).map mkTrans, ∀ q : Int, r.quantity = some q →
      (r ∈ transform bs cs ↔ 0 < q)) ∧
    (∀ r ∈ (joinRows bs cs).map mkTrans, r.quantity = some 0 → r ∉ transform bs cs) := by
  have hmem : ∀ r : TransRow, r ∈ transform bs cs ↔
      (r ∈ (joinRows bs cs).map mkTrans ∧ ∃ q, r.quantity = some q ∧ 0 < q) := by
    intro r
    show r ∈ ((joinRows bs cs).map mkTrans).filter qtyPos ↔ _
    rw [List.mem_filter, qtyPos_iff]
  refine ⟨?_, ?_, fun _ => rfl, hmem, ?_, ?_⟩
  · intro b hb
    cases hms : cs.filter (fun c => sqlEqI b.customer_id c.customer_id) with
    | nil =>
      refine ⟨(b, none), List.mem_flatMap.mpr ⟨b, hb, ?_⟩, rfl⟩
      simp [joinOne, hms]
    | cons c t =>
      refine ⟨(b, some c), List.mem_flatMap.mpr ⟨b, hb, ?_⟩, rfl⟩
      simp [joinOne, hms]
  · intro b hnone
    have : cs.filter (fun c => sqlEqI b.customer_id c.customer_id) = [] :=
      List.filter_eq_nil_iff.mpr (fun c hc => by simp [hnone c hc])
    simp [joinOne, this]
  · intro r _ q hq
    rw [hmem r]
    constructor
    · rintro ⟨_, q', hq', hpos⟩
      rw [hq] at hq'
      cases hq'
      exact hpos
    · intro hpos
      exact ⟨by assumption, q, hq, hpos⟩
  · intro r hr h0
    rw [hmem r]
    rintro ⟨_, q', hq', hpos⟩
    rw [h0] at hq'
    cases hq'
    omega

theorem transform_join_cost_filter_witness :
    ∃ p ∈ joinRows [b0] [c0], p.1 = b0 :=
  (transform_join_cost_filter [b0] [c0]).1 b0 (by decide)

/-- C9: every row surviving the transform's quantity filter has a non-NULL
    quantity strictly greater than zero; rows with a NULL quantity are
    excluded along with rows whose quantity is <= 0. -/
theorem transform_quantity_non_null (bs : List BookingRec) (cs : List CustomerRec)
    (r : TransRow) (hr : r ∈ transform bs cs) : ∃ q, r.quantity = some q ∧ 0 < q := by
  have hr' : r ∈ ((joinRows bs cs).map mkTrans).filter qtyPos := hr
  exact (qtyPos_iff r).mp (List.mem_filter.mp hr').2

theorem transform_quantity_non_null_witness :
    ∃ q, tr0.quantity = some q ∧ 0 < q :=
  transform_quantity_non_null [b0] [c0] tr0 (by decide)

/-- C2: with distinct incoming customer_ids, apply_scd2 closes exactly the
    currently-open rows whose customer_id appears in the batch (setting
    valid_to to the matching incoming row's valid_from), never touches
    closed rows or open rows with no matching incoming id, and appends all
    incoming rows; on the concrete example (open row for customer 5 since
    2024-01-01, incoming row with valid_from 2024-01-05) exactly one row
    for customer 5 ends with valid_to = 2024-01-05 and exactly one is open
    with valid_from = 2024-01-05. -/
theorem apply_scd2_closes_exactly (t incoming : List DimRow)
    (hids : (incoming.map DimRow.customer_id).Nodup) :
    apply_scd2 incoming (some t) = t.map (closeOne incoming) ++ incoming ∧
    (∀ r : DimRow, r.valid_to ≠ openTo → closeOne incoming r = r) ∧
    (∀ r : DimRow, (∀ u ∈ incoming, sqlEqI r.customer_id u.customer_id = false) →
      closeOne incoming r = r) ∧
    (∀ r : DimRow, r.valid_to = openTo → ∀ u ∈ incoming,
      sqlEqI r.customer_id u.customer_id = true →
      closeOne incoming r = { r with valid_to := u.valid_from }) ∧
    apply_scd2 [inc0] (some [dim0]) = [{ dim0 with valid_to := ⟨2024, 1, 5⟩ }, inc0] ∧
    ((apply_scd2 [inc0] (some [dim0])).filter
        (fun r => sqlEqI r.customer_id (some 5) && decide (r.valid_to = ⟨2024, 1, 5⟩))).length
      = 1 ∧
    (apply_scd2 [inc0] (some [dim0])).filter
        (fun r => sqlEqI r.customer_id (some 5) && decide (r.valid_to = openTo)) = [inc0] := by
  refine ⟨rfl, ?_, ?_, ?_, by decide, by decide, by decide⟩
  · intro r hv
    simp [closeOne, hv]
  · intro r hnone
    have hf : incoming.find? (fun u => sqlEqI r.customer_id u.customer_id) = none :=
      List.find?_eq_none.mpr (fun u hu => by simp [hnone u hu])
    by_cases hv : r.valid_to = openTo <;> simp [closeOne, hv, hf]
  · intro r hv u hu hequ
    have hsome : (incoming.find? (fun u => sqlEqI r.customer_id u.customer_id)).isSome :=
      List.find?_isSome.mpr ⟨u, hu, hequ⟩
    obtain ⟨u', hfind⟩ := Option.isSome_iff_exists.mp hsome
    have hpu' : sqlEqI r.customer_id u'.customer_id = true := by
      have h' := List.find?_some hfind
      simpa using h'
    have hu'mem : u' ∈ incoming := List.mem_of_find?_eq_some hfind
    have hcid : u'.customer_id = u.customer_id := by
      rw [← sqlEqI_eq hpu', ← sqlEqI_eq hequ]
    have huu : u' = u := List.inj_on_of_nodup_map hids hu'mem hu hcid
    subst huu
    simp [closeOne, hv, hfind]

theorem apply_scd2_closes_exactly_witness :
    apply_scd2 [inc0] (some [dim0]) = [dim0].map (closeOne [inc0]) ++ [inc0] :=
  (apply_scd2_closes_exactly [dim0] [inc0] (by decide)).1

theorem any_pipeline_iff (m : List MetaRow) :
    m.any isPipelineRow = true ↔ m.filter isPipelineRow ≠ [] := by
  rw [List.any_eq_true]
  constructor
  · rintro ⟨x, hx, hp⟩ hnil
    exact (List.filter_eq_nil_iff.mp hnil x hx) hp
  · intro hne
    cases hq : m.filter isPipelineRow with
    | nil => exact absurd hq hne
    | cons a l =>
      have ham : a ∈ m.filter isPipelineRow := by
        rw [hq]
        exact List.mem_cons_self a l
      exact ⟨a, (List.mem_filter.mp ham).1, (List.mem_filter.mp ham).2⟩

theorem filter_update (m : List MetaRow) (d : Date) :
    (update_last_processed_date m d).filter isPipelineRow =
      (m.filter isPipelineRow).map
        (fun r => if r.table_name = PIPELINE_NAME then { r with last_processed_date := d }
                  else r) := by
  unfold update_last_processed_date
  rw [List.filter_map]
  congr 1
  apply List.filter_congr
  intro r _
  by_cases hn : r.table_name = PIPELINE_NAME <;> simp [isPipelineRow, hn]

theorem get_snd_of_any (m : List MetaRow) (h : m.any isPipelineRow = true) :
    (get_last_processed_date m).2 = m := by
  show (if m.any isPipelineRow then m
        else m ++ [{ table_name := PIPELINE_NAME, last_processed_date := ⟨1900, 1, 1⟩ }]) = m
  rw [if_pos h]

theorem get_snd_of_not_any (m : List MetaRow) (h : m.any isPipelineRow = false) :
    (get_last_processed_date m).2 =
      m ++ [{ table_name := PIPELINE_NAME, last_processed_date := ⟨1900, 1, 1⟩ }] := by
  show (if m.any isPipelineRow then m
        else m ++ [{ table_name := PIPELINE_NAME, last_processed_date := ⟨1900, 1, 1⟩ }]) = _
  rw [if_neg]
  rw [h]
  exact Bool.false_ne_true

theorem get_fst (m : List MetaRow) :
    (get_last_processed_date m).1 =
      (((get_last_processed_date m).2.filter isPipelineRow).head?).map
        MetaRow.last_processed_date := rfl

theorem get_after_update (m : List MetaRow) (d : Date)
    (h1 : (m.filter isPipelineRow).length = 1) :
    (get_last_processed_date (update_last_processed_date m d)).1 = some d := by
  obtain ⟨r0, hr0⟩ := List.length_eq_one.mp h1
  have hp0 : isPipelineRow r0 = true := by
    have hmem : r0 ∈ m.filter isPipelineRow := by
      rw [hr0]
      exact List.mem_cons_self r0 []
    exact (List.mem_filter.mp hmem).2
  have hn0 : r0.table_name = PIPELINE_NAME := of_decide_eq_true hp0
  have hfu : (update_last_processed_date m d).filter isPipelineRow =
      [{ r0 with last_processed_date := d }] := by
    rw [filter_update, hr0]
    simp [hn0]
  have hany : (update_last_processed_date m d).any isPipelineRow = true := by
    rw [any_pipeline_iff, hfu]
    simp
  rw [get_fst, get_snd_of_any _ hany, hfu]
  rfl

/-- C6: get self-initializes the metadata to the sentinel 1900-01-01 when no
    row for the pipeline exists, never creates a duplicate row on repeated
    calls (exactly one pipeline row after a get, and a second get leaves the
    store unchanged), and get after advance(d) returns d. -/
theorem watermark_get_advance (meta : List MetaRow) (d : Date)
    (h : (meta.filter isPipelineRow).length ≤ 1) :
    ((get_last_processed_date meta).2.filter isPipelineRow).length = 1 ∧
    (get_last_processed_date (get_last_processed_date meta).2).2 =
      (get_last_processed_date meta).2 ∧
    (meta.filter isPipelineRow = [] → (get_last_processed_date meta).1 = some ⟨1900, 1, 1⟩) ∧
    (get_last_processed_date (update_last_processed_date
        (get_last_processed_date meta).2 d)).1 = some d := by
  have hlen : ((get_last_processed_date meta).2.filter isPipelineRow).length = 1 := by
    cases hA : meta.any isPipelineRow with
    | true =>
      have hne := (any_pipeline_iff meta).mp hA
      have hpos : 0 < (meta.filter isPipelineRow).length := List.length_pos.mpr hne
      rw [get_snd_of_any meta hA]
      omega
    | false =>
      have hnil : meta.filter isPipelineRow = [] := by
        by_contra hne
        have hT : meta.any isPipelineRow = true := (any_pipeline_iff meta).mpr hne
        rw [hA] at hT
        cases hT
      rw [get_snd_of_not_any meta hA, List.filter_append, hnil]
      simp [isPipelineRow]
  have hany2 : (get_last_processed_date meta).2.any isPipelineRow = true := by
    rw [any_pipeline_iff]
    intro hnil
    rw [hnil] at hlen
    cases hlen
  refine ⟨hlen, ?_, ?_, get_after_update _ d hlen⟩
  · exact get_snd_of_any _ hany2
  · intro hnil
    have hA : meta.any isPipelineRow = false := by
      cases hA : meta.any isPipelineRow with
      | false => rfl
      | true => exact absurd hnil ((any_pipeline_iff meta).mp hA)
    rw [get_fst, get_snd_of_not_any meta hA, List.filter_append, hnil]
    simp [isPipelineRow]

theorem watermark_get_advance_witness :
    (get_last_processed_date (update_last_processed_date
        (get_last_processed_date []).2 ⟨2024, 5, 6⟩)).1 = some ⟨2024, 5, 6⟩ :=
  (watermark_get_advance [] ⟨2024, 5, 6⟩ (by decide)).2.2.2

theorem matchLit_split : ∀ (l s r : List Char), matchLit l s = some r → ∃ p, s = p ++ r := by
  intro l
  induction l with
  | nil =>
    intro s r h
    simp [matchLit] at h
    exact ⟨[], by rw [h]; rfl⟩
  | cons c ls ih =>
    intro s r h
    cases s with
    | nil => simp [matchLit] at h
    | cons a s' =>
      by_cases hc : a = c
      · rw [matchLit, if_pos hc] at h
        obtain ⟨p, hp⟩ := ih s' r h
        exact ⟨a :: p, by rw [hp]; rfl⟩
      · rw [matchLit, if_neg hc] at h
        cases h

theorem takeDigits_split : ∀ (n : Nat) (s t r : List Char),
    takeDigits n s = some (t, r) → ∃ p, s = p ++ r := by
  intro n
  induction n with
  | zero =>
    intro s t r h
    simp [takeDigits] at h
    exact ⟨[], by rw [h.2]; rfl⟩
  | succ n ih =>
    intro s t r h
    cases s with
    | nil => simp [takeDigits] at h
    | cons c s' =>
      by_cases hd : isDig c
      · rw [takeDigits, if_pos hd] at h
        cases hx : takeDigits n s' with
        | none =>
          rw [hx] at h
          cases h
        | some pr =>
          rw [hx, Option.map_some'] at h
          have hr : r = pr.2 := by
            cases h
            rfl
          obtain ⟨p, hp⟩ := ih s' pr.1 pr.2 (by rw [hx])
          exact ⟨c :: p, by rw [hr, hp]; rfl⟩
      · rw [takeDigits, if_neg hd] at h
        cases h

theorem matchDateTok_split (s tok r : List Char) (h : matchDateTok s = some (tok, r)) :
    ∃ p, s = p ++ r := by
  unfold matchDateTok at h
  split at h
  · cases h
  · rename_i y4 s1 heq4
    split at h
    · cases h
    · rename_i s2 heqL1
      split at h
      · cases h
      · rename_i m2 s3 heq2
        split at h
        · cases h
        · rename_i s4 heqL2
          split at h
          · cases h
          · rename_i d2 s5 heq3
            have hr : r = s5 := by
              cases h
              rfl
            obtain ⟨p1, hp1⟩ := takeDigits_split 4 s y4 s1 heq4
            obtain ⟨p2, hp2⟩ := matchLit_split ['-'] s1 s2 heqL1
            obtain ⟨p3, hp3⟩ := takeDigits_split 2 s2 m2 s3 heq2
            obtain ⟨p4, hp4⟩ := matchLit_split ['-'] s3 s4 heqL2
            obtain ⟨p5, hp5⟩ := takeDigits_split 2 s4 d2 s5 heq3
            refine ⟨p1 ++ (p2 ++ (p3 ++ (p4 ++ p5))), ?_⟩
            rw [hr, hp1, hp2, hp3, hp4, hp5]
            simp [List.append_assoc]

theorem backslash_of_matchPatAt (lit s tok : List Char) (h : matchPatAt lit s = some tok) :
    '\\' ∈ s := by
  unfold matchPatAt at h
  split at h
  · cases h
  · rename_i s1 heqL
    split at h
    · cases h
    · rename_i tk s2 heqD
      split at h
      · cases h
      · rename_i s3 heqB
        have hmem2 : '\\' ∈ s2 := by
          cases hs2 : s2 with
          | nil => rw [hs2] at heqB; simp [matchLit] at heqB
          | cons a s' =>
            rw [hs2] at heqB
            by_cases ha : a = '\\'
            · rw [ha]
              exact List.mem_cons_self _ _
            · rw [matchLit, if_neg ha] at heqB
              cases heqB
        obtain ⟨p2, hp2⟩ := matchDateTok_split s1 tk s2 heqD
        obtain ⟨p1, hp1⟩ := matchLit_split lit s s1 heqL
        rw [hp1, hp2]
        simp [List.mem_append, hmem2]

theorem backslash_of_reSearch (lit : List Char) : ∀ (s tok : List Char),
    reSearch lit s = some tok → '\\' ∈ s := by
  intro s
  induction s with
  | nil =>
    intro tok h
    exact backslash_of_matchPatAt lit [] tok h
  | cons c rest ih =>
    intro tok h
    rw [reSearch] at h
    cases hm : matchPatAt lit (c :: rest) with
    | some tk => exact backslash_of_matchPatAt lit (c :: rest) tk hm
    | none =>
      rw [hm] at h
      exact List.mem_cons_of_mem c (ih tok h)

/-- C4 (code bug): the raw-string patterns of __main__ contain a doubled
    backslash, a regex escape for one literal backslash character, so a file
    named by the documented convention bookings_YYYY-MM-DD.csv never
    matches: list_raw_dates returns the empty list on every listing whose
    entry names contain no backslash, although the embedded date token
    itself parses, and a name that does contain a literal backslash in
    place of the dot would match. -/
theorem list_raw_dates_misses_conventional_names (files : List String)
    (h : ∀ f ∈ files, ('\\' : Char) ∉ f.toList) :
    list_raw_dates bookingsLit files = [] ∧
    list_raw_dates customersLit files = [] ∧
    list_raw_dates bookingsLit ["bookings_2024-01-01.csv"] = [] ∧
    parseDateTok ("2024-01-01".toList) = some ⟨2024, 1, 1⟩ ∧
    reSearch bookingsLit ("bookings_2024-01-01\\xcsv".toList) =
      some ("2024-01-01".toList) := by
  have hnil : ∀ lit : List Char,
      files.filterMap (fun f => (reSearch lit f.toList).bind parseDateTok) = [] := by
    intro lit
    refine List.filterMap_eq_nil_iff.mpr (fun f hf => ?_)
    cases hres : reSearch lit f.toList with
    | none => simp
    | some tok => exact absurd (backslash_of_reSearch lit f.toList tok hres) (h f hf)
  refine ⟨?_, ?_, by decide, by decide, by decide⟩
  · rw [list_raw_dates, hnil]
    rfl
  · rw [list_raw_dates, hnil]
    rfl

theorem list_raw_dates_misses_witness :
    list_raw_dates bookingsLit ["bookings_2024-01-01.csv"] = [] :=
  (list_raw_dates_misses_conventional_names ["bookings_2024-01-01.csv"] (by decide)).1

/-- C10 counterexample: when the watermark update raises, the dimension
    store does not retain its prior value — the SCD2 append has already
    committed, so only the watermark is left behind. -/
theorem watermark_failure_leaves_new_dimension :
    runDateStep false false false true ⟨2024, 1, 5⟩ [b0] [c0] s0 =
      .err (applyDateWrites ⟨2024, 1, 5⟩ [b0] [c0] s0) "Watermark update failed" ∧
    (applyDateWrites ⟨2024, 1, 5⟩ [b0] [c0] s0).scd ≠ s0.scd := by decide

/-- C10 amended: the fact overwrite commits before the SCD2 step begins,
    and the SCD2 MERGE and the append are separate commits: a failure
    inside the MERGE leaves the new fact table with the dimension store and
    the watermark unchanged; a failure at the append leaves the new fact
    table and a dimension store whose matched open rows are closed but with
    nothing appended (neither its prior nor its new state); a failure at
    the initial dimension write (no table yet) leaves only the new fact
    table; and a failure at the watermark update leaves the new fact and
    dimension tables with only the watermark unchanged — per-date
    processing is not atomic across the three stores. -/
theorem per_date_commit_order (pa : Bool) (d : Date) (bs : List BookingRec)
    (cs : List CustomerRec) (s : PipelineState) (t : List DimRow)
    (hb : pa = false ∨ (bookingChecksPass bs = true ∧ customerChecksPass cs = true)) :
    (∀ aF wmF : Bool, s.scd = some t → runDateStep pa true aF wmF d bs cs s =
      .err { s with fact := some (aggregate_and_merge (transform bs cs) s.fact) }
        "SCD merge failed") ∧
    (∀ wmF : Bool, s.scd = some t → runDateStep pa false true wmF d bs cs s =
      .err { s with fact := some (aggregate_and_merge (transform bs cs) s.fact),
                    scd := some (t.map (closeOne (mkIncoming d cs))) }
        "SCD append failed") ∧
    (∀ wmF : Bool, s.scd = none → runDateStep pa false true wmF d bs cs s =
      .err { s with fact := some (aggregate_and_merge (transform bs cs) s.fact) }
        "SCD write failed") ∧
    runDateStep pa false false true d bs cs s =
      .err (applyDateWrites d bs cs s) "Watermark update failed" ∧
    (applyDateWrites d bs cs s).meta = s.meta ∧
    (applyDateWrites d bs cs s).fact = some (aggregate_and_merge (transform bs cs) s.fact) ∧
    (applyDateWrites d bs cs s).scd = some (apply_scd2 (mkIncoming d cs) s.scd) := by
  have hgate : ∀ mF aF : Bool, process_date pa mF aF d bs cs s =
      (let s1 : PipelineState :=
        { s with fact := some (aggregate_and_merge (transform bs cs) s.fact) }
       match s.scd with
       | some t' =>
         if mF then .err s1 "SCD merge failed"
         else if aF then
           .err { s1 with scd := some (t'.map (closeOne (mkIncoming d cs))) }
             "SCD append failed"
         else .ok { s1 with scd := some (t'.map (closeOne (mkIncoming d cs)) ++ mkIncoming d cs) }
       | none =>
         if aF then .err s1 "SCD write failed"
         else .ok { s1 with scd := some (mkIncoming d cs) }) := by
    intro mF aF
    rcases hb with h | ⟨h1, h2⟩
    · subst h
      rfl
    · simp [process_date, h1, h2]
  refine ⟨?_, ?_, ?_, ?_, rfl, rfl, rfl⟩
  · intro aF wmF hs
    simp [runDateStep, hgate true aF, hs]
  · intro wmF hs
    simp [runDateStep, hgate false true, hs]
  · intro wmF hs
    simp [runDateStep, hgate false true, hs]
  · simp [runDateStep, process_date_ok pa d bs cs s hb]

theorem per_date_commit_order_witness :
    runDateStep false false false true ⟨2024, 1, 5⟩ [b0] [c0] s0 =
      .err (applyDateWrites ⟨2024, 1, 5⟩ [b0] [c0] s0) "Watermark update failed" :=
  (per_date_commit_order false ⟨2024, 1, 5⟩ [b0] [c0] s0 [] (Or.inl rfl)).2.2.2.1

end BookingETL
